import Mathlib

/-!
# ChessPilot — verification of the move-execution core

Shallow embedding of the executor modules of the ChessPilot repository
(`src/executor/*.py`, `src/core/config.py`) together with proofs about
them.  Python strings are modelled as `List Char`; Python's
whitespace-`split()` is `pySplit`, `" ".join` is `pyJoinWs`, dictionary
slots that may be absent are `Option`, and code that can raise an
uncaught exception returns `Option`/is modelled with an explicit
outcome.  Stateful loops (the auto-move polling loop, the move pipeline)
are modelled as step functions over explicit state records driven by
lists of externally-supplied tick outcomes.
-/

/-! ## String utilities (Python `str.split()` / `" ".join`) -/

/-- The whitespace characters recognised by Python's `str.split()`
(ASCII range). -/
def isWsChar (c : Char) : Bool :=
  c = ' ' || c = '\t' || c = '\n' || c = '\x0d' || c = '\x0b' || c = '\x0c'

/-- Python `s.split()`: split on runs of whitespace, dropping empty
fields. -/
def pySplit : List Char → List (List Char)
  | [] => []
  | c :: rest =>
    if isWsChar c then pySplit rest
    else
      match rest with
      | [] => [[c]]
      | d :: _ =>
        if isWsChar d then [c] :: pySplit rest
        else
          match pySplit rest with
          | [] => [[c]]
          | t :: ts => (c :: t) :: ts

/-- Python `" ".join(fields)`. -/
def pyJoinWs : List (List Char) → List Char
  | [] => []
  | [t] => t
  | t :: u :: ts => t ++ ' ' :: pyJoinWs (u :: ts)

/-! ## Configuration (`src/core/config.py`, class `AppConfig`) -/

namespace AppConfig

/-- `AppConfig.MAX_CONSECUTIVE_FAILURES` — maximum consecutive failures
before auto mode stops. -/
def MAX_CONSECUTIVE_FAILURES : Nat := 3

/-- `AppConfig.SKIP_VERIFICATION_ON_FAILURE` — skip verification if it
fails (continue with move execution). -/
def SKIP_VERIFICATION_ON_FAILURE : Bool := true

/-- `AppConfig.MAX_FEN_EXTRACTION_RETRIES`. -/
def MAX_FEN_EXTRACTION_RETRIES : Nat := 3

end AppConfig

/-! ## Auto-move detection loop (`src/executor/auto_move.py`)

`_run_move_detection_loop` is modelled as a transition function over an
explicit state, driven by a list of tick outcomes.  One `TickEvent` is
what one iteration of the `while` loop observes:

* `skip` — `_should_continue_processing` returned `False` (a move is
  being processed, or board positions are not initialized): `continue`.
* `raiseBeforeReset msg` — an exception escaped the tick body before the
  line `_consecutive_failures = 0` was reached (e.g. a fault inside
  `_capture_current_position`); handled by the `except` clause.
* `captureNone` — `_capture_current_position` returned `None`.
* `captureSome placement active fault?` — capture succeeded (so the
  counter is reset to zero); `fault? = some msg` means a later statement
  of the same tick raised and the `except` clause ran after the reset.
-/

inductive TickEvent where
  | skip : TickEvent
  | raiseBeforeReset : List Char → TickEvent
  | captureNone : TickEvent
  | captureSome : List Char → List Char → Option (List Char) → TickEvent

/-- The loop state: the module-global `_consecutive_failures` counter,
the auto-mode flag read by the `while` condition, and the message passed
to `_stop_auto_mode` (`none` while the loop has not stopped itself). -/
structure LoopState where
  failures : Nat
  autoMode : Bool
  stoppedMsg : Option (List Char)
  deriving DecidableEq, Repr

/-- `_stop_auto_mode`: disables the auto-mode variable and reports the
message through the status callback. -/
def _stop_auto_mode (s : LoopState) (msg : List Char) : LoopState :=
  { s with autoMode := false, stoppedMsg := some msg }

/-- Message of the top-of-loop threshold check:
`f"Auto mode stopped: {n} consecutive failures"`. -/
def stopMsgTop (n : Nat) : List Char :=
  "Auto mode stopped: ".toList ++ Nat.toDigits 10 n ++ " consecutive failures".toList

/-- `"Auto mode stopped: Board detection failed repeatedly"`. -/
def stopMsgDetect : List Char :=
  "Auto mode stopped: Board detection failed repeatedly".toList

/-- `f"Auto mode stopped: Error - {str(e)}"`. -/
def stopMsgError (e : List Char) : List Char :=
  "Auto mode stopped: Error - ".toList ++ e

/-- `_run_move_detection_loop`, one `while` iteration per consumed
event; the function returns the state in which the loop is left when
the supplied tick outcomes are exhausted or the loop exits. -/
def runLoop (s : LoopState) : List TickEvent → LoopState
  | [] => s
  | e :: rest =>
    if s.autoMode = false then s
    else if AppConfig.MAX_CONSECUTIVE_FAILURES ≤ s.failures then
      _stop_auto_mode s (stopMsgTop s.failures)
    else
      match e with
      | .skip => runLoop s rest
      | .raiseBeforeReset msg =>
        let s2 : LoopState := { s with failures := s.failures + 1 }
        if AppConfig.MAX_CONSECUTIVE_FAILURES ≤ s2.failures then
          _stop_auto_mode s2 (stopMsgError msg)
        else runLoop s2 rest
      | .captureNone =>
        let s2 : LoopState := { s with failures := s.failures + 1 }
        if AppConfig.MAX_CONSECUTIVE_FAILURES ≤ s2.failures then
          _stop_auto_mode s2 stopMsgDetect
        else runLoop s2 rest
      | .captureSome _ _ fault? =>
        let s2 : LoopState := { s with failures := 0 }
        match fault? with
        | none => runLoop s2 rest
        | some msg =>
          let s3 : LoopState := { s2 with failures := s2.failures + 1 }
          if AppConfig.MAX_CONSECUTIVE_FAILURES ≤ s3.failures then
            _stop_auto_mode s3 (stopMsgError msg)
          else runLoop s3 rest

/-- `_handle_player_turn` (auto_move.py): given the opponent slot of
`last_fen_by_color` (`none` when the key is absent) and the freshly
sampled placement, returns whether a genuine opponent move was detected
together with the updated slot. -/
def _handle_player_turn (slot : Option (List Char)) (placement : List Char) :
    Bool × Option (List Char) :=
  match slot with
  | none => (false, none)
  | some old => if placement = old then (false, some old) else (true, some placement)

/-! ## `process_move` in-flight flag (`src/executor/process_move.py`)

`process_move` is modelled by its effect on the shared
`processing_event` flag.  The body between `_initialize_move_processing`
and `_finalize_move_processing` is abstracted by its outcome: the board
extraction may return `None` (early `return` inside `try`), the
pipeline may complete, or any step may raise (the exception is caught
by the `except` clause); in all three cases the `finally` clause runs.
-/

inductive PipelineOutcome where
  | noBoard : PipelineOutcome
  | completed : PipelineOutcome
  | raised : List Char → PipelineOutcome

/-- Observable result of one `process_move` call: whether the pipeline
body was dispatched, the value of `processing_event` while the body
ran (equal to the entry value when nothing was dispatched), and its
value after the call returns. -/
structure ProcessResult where
  dispatched : Bool
  flagDuring : Bool
  flagAfter : Bool
  deriving DecidableEq, Repr

/-- `process_move`: `_can_start_processing` aborts the call if the flag
is already set; otherwise `_initialize_move_processing` sets the flag,
the `try`/`except` body runs to one of its outcomes, and the `finally`
clause (`_finalize_move_processing`) clears the flag. -/
def process_move (flag0 : Bool) (outcome : PipelineOutcome) : ProcessResult :=
  if flag0 then
    { dispatched := false, flagDuring := flag0, flagAfter := flag0 }
  else
    let flagSet := true
    match outcome with
    | .noBoard => { dispatched := true, flagDuring := flagSet, flagAfter := false }
    | .completed => { dispatched := true, flagDuring := flagSet, flagAfter := false }
    | .raised _ => { dispatched := true, flagDuring := flagSet, flagAfter := false }

/-! ## Pawn promotion (`src/executor/pawn_promotion.py`) -/

/-- `is_pawn_promotion_move`: a UCI move is a promotion iff it has 5
characters and its last character is a promotion piece letter in either
case. -/
def is_pawn_promotion_move (m : List Char) : Bool :=
  decide (m.length = 5) &&
    (['q', 'r', 'b', 'n', 'Q', 'R', 'B', 'N'] : List Char).contains (m.getD 4 ' ')

/-- `get_promotion_piece_from_move`: the lower-cased 5th character of a
5-character move, `None` otherwise. -/
def get_promotion_piece_from_move (m : List Char) : Option Char :=
  if m.length = 5 then some (m.getD 4 ' ').toLower else none

/-! ## Normal-move execution (`src/executor/execute_normal_move.py`)

The externally visible side effects of the pipeline are collected in a
`UIState`: the last status text reported through `update_status` and the
auto-mode flag manipulated by `_disable_auto_mode`.  The unreliable
collaborators are abstracted: `captures` gives the FEN (if any) obtained
by `_capture_and_extract_fen` on each verification attempt, and
`didMove` abstracts `did_my_piece_move color original_fen · move`
(that helper lives in a module outside the executor sources).
-/

structure UIState where
  status : Option (List Char)
  autoMode : Bool
  deriving DecidableEq, Repr

/-- `update_status` callback: records the reported status text. -/
def update_status (ui : UIState) (s : List Char) : UIState :=
  { ui with status := some s }

/-- `_disable_auto_mode`: clears the auto-mode flag (variable, checkbox
and play button are collapsed into the single flag). -/
def _disable_auto_mode (ui : UIState) : UIState :=
  { ui with autoMode := false }

/-- The `f"Best Move: {move}\nMove Played: {move}"` status prefix. -/
def bestMoveStatus (move : List Char) : List Char :=
  "Best Move: ".toList ++ move ++ "\nMove Played: ".toList ++ move

/-- The literal appended to the status on mate (the exact character
sequence found in `execute_normal_move.py`, a `\n` followed by a
mojibake rendering of a styled "Checkmate"). -/
def checkmateSuffix : List Char :=
  '\n' :: ([0xf0, 0x2dc, 0xbe, 0xf0, 0x2122, 0xf0, 0x2122, 0x161, 0xf0, 0x2122,
    0x2dc, 0xf0, 0x2122, 0xa0, 0xf0, 0x2122, 0xa2, 0xf0, 0x2122, 0x2013,
    0xf0, 0x2122, 0xa9, 0xf0, 0x2122, 0x161].map Char.ofNat)

/-- `f"Move failed to register after {max_retries} attempts\n..."`. -/
def moveFailedMsg (maxRetries : Nat) : List Char :=
  "Move failed to register after ".toList ++ Nat.toDigits 10 maxRetries ++
    " attempts\nCheck board detection settings".toList

/-- `_handle_successful_move`. -/
def _handle_successful_move (move : List Char) (mateFlag : Bool) (ui : UIState) :
    UIState :=
  let status := bestMoveStatus move
  let status := if mateFlag then status ++ checkmateSuffix else status
  let ui := if mateFlag then _disable_auto_mode ui else ui
  update_status ui status

/-- `_handle_unverified_move`: reports the move with an
`" (unverified)"` marker and disables auto mode unconditionally. -/
def _handle_unverified_move (move : List Char) (mateFlag : Bool) (ui : UIState) :
    UIState :=
  let status := bestMoveStatus move ++ " (unverified)".toList
  let status := if mateFlag then status ++ checkmateSuffix else status
  let ui := update_status ui status
  _disable_auto_mode ui

/-- `_handle_move_failure`. -/
def _handle_move_failure (maxRetries : Nat) (ui : UIState) : UIState :=
  _disable_auto_mode (update_status ui (moveFailedMsg maxRetries))

/-- `MoveResult` (execute_normal_move.py). -/
structure MoveResult where
  success : Bool
  should_stop_retrying : Bool
  deriving DecidableEq, Repr

/-- Per-attempt view of the unreliable collaborators used by
`_attempt_single_move`. -/
structure AttemptEnv where
  originalFen : Option (List Char)
  positionsOk : Bool
  captures : Nat → Option (List Char)

/-- The verification loop of `_verify_move_execution`: the first
captured FEN accepted by `did_my_piece_move`, scanning attempts
`i, i+1, …` while fuel remains. -/
def findVerified (didMove : List Char → Bool) (captures : Nat → Option (List Char)) :
    Nat → Nat → Option (List Char)
  | _, 0 => none
  | i, k + 1 =>
    match captures i with
    | some fen => if didMove fen then some fen else findVerified didMove captures (i + 1) k
    | none => findVerified didMove captures (i + 1) k

/-- `_verify_move_execution`: up to 4 attempts for a promotion move,
2 otherwise; returns the FEN of the first verified attempt. -/
def _verify_move_execution (didMove : List Char → Bool) (move : List Char)
    (captures : Nat → Option (List Char)) : Option (List Char) :=
  let maxVerifyAttempts := if is_pawn_promotion_move move then 4 else 2
  findVerified didMove captures 0 maxVerifyAttempts

/-- `_attempt_single_move`: one execution attempt.  Returns the
`MoveResult` together with the updated UI state. -/
def _attempt_single_move (env : AttemptEnv) (didMove : List Char → Bool)
    (move : List Char) (mateFlag : Bool) (ui : UIState) : MoveResult × UIState :=
  match env.originalFen with
  | none => (⟨false, false⟩, ui)
  | some _ =>
    if env.positionsOk = false then (⟨false, false⟩, ui)
    else
      match _verify_move_execution didMove move env.captures with
      | some _ => (⟨true, false⟩, _handle_successful_move move mateFlag ui)
      | none =>
        if AppConfig.SKIP_VERIFICATION_ON_FAILURE then
          (⟨true, true⟩, _handle_unverified_move move mateFlag ui)
        else (⟨false, false⟩, ui)

/-- The retry loop of `execute_normal_move`: attempts numbered
`i, i+1, …` while fuel remains; on exhausting the attempts (or on
`should_stop_retrying`) `_handle_move_failure` runs and `False` is
returned. -/
def execLoop (envs : Nat → AttemptEnv) (didMove : List Char → Bool)
    (move : List Char) (mateFlag : Bool) : Nat → Nat → UIState → Bool × UIState
  | _, 0, ui => (false, _handle_move_failure 3 ui)
  | i, k + 1, ui =>
    let r := _attempt_single_move (envs i) didMove move mateFlag ui
    if r.1.success then (true, r.2)
    else if r.1.should_stop_retrying then (false, _handle_move_failure 3 r.2)
    else execLoop envs didMove move mateFlag (i + 1) k r.2

/-- `execute_normal_move` with its `max_retries = 3`. -/
def execute_normal_move (envs : Nat → AttemptEnv) (didMove : List Char → Bool)
    (move : List Char) (mateFlag : Bool) (ui : UIState) : Bool × UIState :=
  execLoop envs didMove move mateFlag 1 3 ui

/-! ## Castling verification (`src/executor/did_castling_move.py`) -/

/-- `expand_row`: run-length decode one FEN rank (digits expand to that
many blank cells). -/
def expandRow : List Char → List Char
  | [] => []
  | c :: rest =>
    (if c.isDigit then List.replicate (c.toNat - '0'.toNat) ' ' else [c]) ++ expandRow rest

/-- `fen_to_list`: placement field of a FEN, split at `/` and expanded
rank by rank (64 cells for a well-formed placement). -/
def fen_to_list (fen : List Char) : List Char :=
  (((pySplit fen).getD 0 []).splitOn '/').map expandRow |>.flatten

/-- `algebraic_to_index`: `'a1'..'h8'` to a rank-major index, rank 8
first (`e1 ↦ 60`). -/
def algebraic_to_index (sq : List Char) : Nat :=
  let file := (sq.getD 0 ' ').toNat - 'a'.toNat
  let rank := 8 - ((sq.getD 1 ' ').toNat - '0'.toNat)
  rank * 8 + file

/-- The player's piece letters (`'PNBRQK'` for white, `'pnbrqk'` for
black). -/
def myPieces (colorIndicator : List Char) : List Char :=
  if colorIndicator = ['w'] then "PNBRQK".toList else "pnbrqk".toList

/-- `did_castling_move`: both the king leg and the rook leg must
satisfy the moved-from / moved-to pattern; the "everything else
unchanged" check present in the source is commented out. -/
def did_castling_move (colorIndicator : List Char) (beforeFen afterFen : List Char)
    (kingMove rookMove : List Char) : Bool :=
  let beforeList := fen_to_list beforeFen
  let afterList := fen_to_list afterFen
  let kingStartI := algebraic_to_index (kingMove.take 2)
  let kingEndI := algebraic_to_index ((kingMove.drop 2).take 2)
  let rookStartI := algebraic_to_index (rookMove.take 2)
  let rookEndI := algebraic_to_index ((rookMove.drop 2).take 2)
  let my := myPieces colorIndicator
  let kingChar := beforeList.getD kingStartI ' '
  let rookChar := beforeList.getD rookStartI ' '
  let kingMovedFrom := my.contains kingChar && (afterList.getD kingStartI ' ' == ' ')
  let kingMovedTo := afterList.getD kingEndI ' ' == kingChar
  let rookMovedFrom := my.contains rookChar && (afterList.getD rookStartI ' ' == ' ')
  let rookMovedTo := afterList.getD rookEndI ' ' == rookChar
  kingMovedFrom && kingMovedTo && rookMovedFrom && rookMovedTo

/-- The leg pattern exactly as the specification words it (C5): the
origin cell held one of the player's pieces before and is empty after,
and the destination cell *was empty before* and now holds that same
piece. -/
def specCastlingLeg (beforeList afterList my : List Char) (startI endI : Nat) : Bool :=
  my.contains (beforeList.getD startI ' ') &&
  (afterList.getD startI ' ' == ' ') &&
  (beforeList.getD endI ' ' == ' ') &&
  (afterList.getD endI ' ' == beforeList.getD startI ' ')

/-- The specification's characterisation of `did_castling_move` (C5):
each of the two legs independently satisfies `specCastlingLeg`. -/
def specCastlingBothLegs (colorIndicator : List Char) (beforeFen afterFen : List Char)
    (kingMove rookMove : List Char) : Bool :=
  let beforeList := fen_to_list beforeFen
  let afterList := fen_to_list afterFen
  let my := myPieces colorIndicator
  specCastlingLeg beforeList afterList my
    (algebraic_to_index (kingMove.take 2)) (algebraic_to_index ((kingMove.drop 2).take 2)) &&
  specCastlingLeg beforeList afterList my
    (algebraic_to_index (rookMove.take 2)) (algebraic_to_index ((rookMove.drop 2).take 2))

/-- The leg pattern actually checked by the source: as
`specCastlingLeg` but without the destination-was-empty-before
conjunct. -/
def codeCastlingLeg (beforeList afterList my : List Char) (startI endI : Nat) : Bool :=
  my.contains (beforeList.getD startI ' ') &&
  (afterList.getD startI ' ' == ' ') &&
  (afterList.getD endI ' ' == beforeList.getD startI ' ')

/-! ## Castling rights (`src/executor/update_fen_castling_rights.py`) -/

inductive CastleSide where
  | kingside : CastleSide
  | queenside : CastleSide
  deriving DecidableEq, Repr

/-- Modelled from the spec: `is_castling_possible` — its module
(`src/executor/is_castling_possible.py`) is not among the sources, only
its callers are.  Spec §4.2: "expand the relevant home rank's
run-length encoding to 8 explicit cells; true iff king sits on its home
e-file square and the matching-side rook sits on its home corner"; the
§8 scenario (rank1 `"RNBQK  R"` gives kingside possible, queenside
not) additionally requires the cells between king and rook to be
empty, so that check is included. -/
def is_castling_possible (fen : List Char) (color : List Char) (side : CastleSide) :
    Bool :=
  let rows := ((pySplit fen).getD 0 []).splitOn '/'
  let home := expandRow (if color = ['w'] then rows.getD 7 [] else rows.getD 0 [])
  let kingC := if color = ['w'] then 'K' else 'k'
  let rookC := if color = ['w'] then 'R' else 'r'
  (home.getD 4 ' ' == kingC) &&
    match side with
    | .kingside =>
      (home.getD 7 ' ' == rookC) && (home.getD 5 ' ' == ' ') && (home.getD 6 ' ' == ' ')
    | .queenside =>
      (home.getD 0 ' ' == rookC) && (home.getD 1 ' ' == ' ') &&
        (home.getD 2 ' ' == ' ') && (home.getD 3 ' ' == ' ')

/-- `_get_castling_symbols`: `(kingside, queenside)` symbols for a
color. -/
def _get_castling_symbols (color : List Char) : Char × Char :=
  if color = ['w'] then ('K', 'Q') else ('k', 'q')

/-- `_should_add_castling_right`: physically possible, and — only for
the player's own color — gated by the matching user flag (the
checkbox variables are modelled by their boolean values). -/
def _should_add_castling_right (targetColor : List Char) (side : CastleSide)
    (playerColor : List Char) (sideVar : Bool) (fen : List Char) : Bool :=
  if is_castling_possible fen targetColor side = false then false
  else if targetColor = playerColor then sideVar
  else true

/-- `_get_color_castling_rights`. -/
def _get_color_castling_rights (targetColor playerColor : List Char)
    (kingsideVar queensideVar : Bool) (fen : List Char) : List Char :=
  let syms := _get_castling_symbols targetColor
  (if _should_add_castling_right targetColor .kingside playerColor kingsideVar fen
   then [syms.1] else []) ++
  (if _should_add_castling_right targetColor .queenside playerColor queensideVar fen
   then [syms.2] else [])

/-- `_build_castling_rights`: white rights then black rights, `"-"`
when empty. -/
def _build_castling_rights (playerColor : List Char) (kingsideVar queensideVar : Bool)
    (fen : List Char) : List Char :=
  let combined :=
    _get_color_castling_rights ['w'] playerColor kingsideVar queensideVar fen ++
    _get_color_castling_rights ['b'] playerColor kingsideVar queensideVar fen
  if combined = [] then ['-'] else combined

/-- `update_fen_castling_rights`: a FEN with fewer than 6 fields is
returned unchanged (`_validate_and_parse_fen` fails); otherwise field 2
is replaced by the rebuilt castling string and the fields are re-joined
with single spaces (`_reconstruct_fen_with_castling`). -/
def update_fen_castling_rights (playerColor : List Char)
    (kingsideVar queensideVar : Bool) (fen : List Char) : List Char :=
  let fields := pySplit fen
  if fields.length < 6 then fen
  else pyJoinWs (fields.set 2 (_build_castling_rights playerColor kingsideVar queensideVar fen))

/-- The specification's per-symbol inclusion condition (C6): a castling
symbol qualifies iff its color/side is physically castling-possible
and — when the symbol belongs to the player's color — the matching
user flag is set (which is exactly `_should_add_castling_right` for
that symbol's color and side). -/
def castlingSymbolQualifies (playerColor : List Char) (kingsideVar queensideVar : Bool)
    (fen : List Char) : Char → Bool
  | 'K' => _should_add_castling_right ['w'] .kingside playerColor kingsideVar fen
  | 'Q' => _should_add_castling_right ['w'] .queenside playerColor queensideVar fen
  | 'k' => _should_add_castling_right ['b'] .kingside playerColor kingsideVar fen
  | 'q' => _should_add_castling_right ['b'] .queenside playerColor queensideVar fen
  | _ => false

/-! ## Move verification (`src/executor/verify_move.py`)

`verify_move` polls the vision sensor up to `attempts_limit` times.
Each attempt is abstracted by `samples i`: `none` covers every early
failure of the attempt (screenshot `None`, no boxes, no chessboard box,
FEN extraction `None` or an exception — all of which `continue`), and
`some parts` is the whitespace-split field list of the extracted FEN.
-/

/-- One attempt succeeds iff the sampled FEN's side-to-move field
exists and differs from the player's color, or its placement field
equals the expected placement (an out-of-range field access raises and
the attempt is skipped — `none` behaves as a failed condition). -/
def verifyAttemptOk (color expectedPieces : List Char) (parts : List (List Char)) :
    Bool :=
  (match parts[1]? with
   | some stm => decide (stm ≠ color)
   | none => false) ||
  (match parts[0]? with
   | some p => decide (p = expectedPieces)
   | none => false)

/-- First attempt index (scanning `i, i+1, …` while fuel remains) at
which `good` holds. -/
def firstGoodAttempt (good : Nat → Bool) : Nat → Nat → Option Nat
  | _, 0 => none
  | i, k + 1 => if good i then some i else firstGoodAttempt good (i + 1) k

/-- `verify_move`: `none` models the uncaught `IndexError` of
`expected_fen.split()[0]` on a field-less `expected_fen`; otherwise the
1-based attempt loop returns `(True, attempt)` on the first successful
attempt and `(False, attempts_limit)` when all fail. -/
def verify_move (color expectedFen : List Char)
    (samples : Nat → Option (List (List Char))) (attemptsLimit : Nat) :
    Option (Bool × Nat) :=
  match (pySplit expectedFen)[0]? with
  | none => none
  | some expectedPieces =>
    let good := fun i =>
      match samples i with
      | some parts => verifyAttemptOk color expectedPieces parts
      | none => false
    match firstGoodAttempt good 1 attemptsLimit with
    | some i => some (true, i)
    | none => some (false, attemptsLimit)

/-- The property claim C9 asserts of a `verify_move` result: the result
is a success carrying the 1-based index of the first attempt whose
sample either shows a side-to-move different from the player's color or
a placement equal to the expected one, and a failure carrying the
attempt budget when no attempt satisfies either condition. -/
def verifyMoveClaimProp (color expectedFen : List Char)
    (samples : Nat → Option (List (List Char))) (attemptsLimit : Nat)
    (res : Bool × Nat) : Prop :=
  ∃ expectedPieces, (pySplit expectedFen)[0]? = some expectedPieces ∧
    (∀ parts : List (List Char),
      verifyAttemptOk color expectedPieces parts = true ↔
        ((∃ stm, parts[1]? = some stm ∧ stm ≠ color) ∨ parts[0]? = some expectedPieces)) ∧
    (let good : Nat → Bool := fun i =>
      match samples i with
      | some parts => verifyAttemptOk color expectedPieces parts
      | none => false
    (∃ i, 1 ≤ i ∧ i ≤ attemptsLimit ∧ good i = true ∧
        (∀ j, 1 ≤ j → j < i → good j = false) ∧ res = (true, i)) ∨
      ((∀ j, 1 ≤ j → j ≤ attemptsLimit → good j = false) ∧ res = (false, attemptsLimit)))

/-! ## Engine output parsing (`src/executor/get_best_move.py`) -/

/-- The `"score mate"` needle. -/
def scoreMateLit : List Char := "score mate".toList

/-- Remainder of `l` after the first occurrence of `sub`; `none` when
`sub` does not occur (`sub in line` is `(afterFirstSub sub l).isSome`). -/
def afterFirstSub (sub : List Char) : List Char → Option (List Char)
  | [] => if sub.isPrefixOf ([] : List Char) then some [] else none
  | c :: r =>
    if sub.isPrefixOf (c :: r) then some ((c :: r).drop sub.length)
    else afterFirstSub sub r

/-- Longest prefix not containing `sub`; applied to the remainder after
the first occurrence this is `line.split(sub)[1]`. -/
def takeUntilSub (sub : List Char) : List Char → List Char
  | [] => []
  | c :: r => if sub.isPrefixOf (c :: r) then [] else c :: takeUntilSub sub r

/-- No `"__"` inside a numeric literal (Python `int()` rejects doubled
underscores). -/
def noDoubleUnderscore : List Char → Bool
  | [] => true
  | [_] => true
  | a :: b :: r => !((a == '_') && (b == '_')) && noDoubleUnderscore (b :: r)

/-- Decimal value of a digit list. -/
def digitsToNat (l : List Char) : Nat :=
  l.foldl (fun acc c => acc * 10 + (c.toNat - '0'.toNat)) 0

/-- Python `int(s)` on a whitespace-free token: optional sign, then a
nonempty run of digits with optional single interior underscores;
`none` models `ValueError`. -/
def pyIntParse (s : List Char) : Option Int :=
  let signBody : Int × List Char :=
    match s with
    | '+' :: r => (1, r)
    | '-' :: r => (-1, r)
    | _ => (1, s)
  let t := signBody.2
  if t = [] then none
  else if t.all (fun c => c.isDigit || c == '_') && !(t.head? == some '_') &&
      !(t.getLast? == some '_') && noDoubleUnderscore t then
    some (signBody.1 * (digitsToNat (t.filter (fun c => !(c == '_'))) : Int))
  else none

/-- The mate value a line yields in `_check_for_mate`:
`int(line.split("score mate")[1].split()[0])`, `none` on `IndexError`
or `ValueError` (both caught) or when `"score mate"` is absent. -/
def parsedMateScore (line : List Char) : Option Int :=
  match afterFirstSub scoreMateLit line with
  | none => none
  | some rest =>
    match (pySplit (takeUntilSub scoreMateLit rest))[0]? with
    | none => none
    | some tok => pyIntParse tok

/-- `_check_for_mate`: sets the flag when a line announces mate with
absolute value exactly 1; otherwise returns the current flag. -/
def _check_for_mate (line : List Char) (currentMateFlag : Bool) : Bool :=
  match afterFirstSub scoreMateLit line with
  | none => currentMateFlag
  | some _ =>
    match parsedMateScore line with
    | some v => if v.natAbs = 1 then true else currentMateFlag
    | none => currentMateFlag

/-- `_extract_best_move`: `some tok?` when the line starts with
`bestmove` (`tok? = none` models the uncaught `IndexError` of
`split()[1]` when the token is missing), `none` for any other line. -/
def _extract_best_move (line : List Char) : Option (Option (List Char)) :=
  if "bestmove".toList.isPrefixOf line then some (pySplit line)[1]? else none

/-- The read loop of `_get_move_from_engine`: each line first runs the
mate check, then the best-move extraction; the loop breaks at the first
`bestmove` line and returns `(best_move, mate_flag)`; an exhausted
stream returns `(none, flag)`; result `none` models an uncaught
exception. -/
def engineLoop : List (List Char) → Bool → Option (Option (List Char) × Bool)
  | [], flag => some (none, flag)
  | l :: rest, flag =>
    let flag2 := _check_for_mate l flag
    match _extract_best_move l with
    | some none => none
    | some (some tok) => some (some tok, flag2)
    | none => engineLoop rest flag2

/-- `_get_move_from_engine` on the stream of engine output lines. -/
def _get_move_from_engine (lines : List (List Char)) :
    Option (Option (List Char) × Bool) :=
  engineLoop lines false

/-! ## Tokenizer lemmas -/

theorem pySplit_cons (c : Char) (rest : List Char) :
    pySplit (c :: rest) =
      if isWsChar c then pySplit rest
      else
        match rest with
        | [] => [[c]]
        | d :: _ =>
          if isWsChar d then [c] :: pySplit rest
          else
            match pySplit rest with
            | [] => [[c]]
            | t :: ts => (c :: t) :: ts := by
  rw [pySplit.eq_def]

theorem pySplit_tokens :
    ∀ l : List Char, ∀ t ∈ pySplit l, t ≠ [] ∧ ∀ c ∈ t, isWsChar c = false := by
  intro l
  induction l with
  | nil => intro t ht; simp [pySplit] at ht
  | cons c rest ih =>
    intro t ht
    by_cases hc : isWsChar c
    · rw [pySplit_cons] at ht
      simp only [hc, if_true] at ht
      exact ih t ht
    · cases rest with
      | nil =>
        rw [pySplit_cons] at ht
        simp only [hc] at ht
        simp at ht
        subst ht
        refine ⟨by simp, ?_⟩
        intro x hx
        simp at hx
        subst hx
        simpa using hc
      | cons d rest2 =>
        by_cases hd : isWsChar d
        · rw [pySplit_cons] at ht
          simp only [hc, hd, if_false, if_true] at ht
          rcases List.mem_cons.mp ht with h1 | h2
          · subst h1
            refine ⟨by simp, ?_⟩
            intro x hx
            simp at hx
            subst hx
            simpa using hc
          · exact ih t h2
        · rcases hps : pySplit (d :: rest2) with _ | ⟨t0, ts⟩
          · rw [pySplit_cons] at ht
            simp only [hc, hd, if_false, hps] at ht
            simp at ht
            subst ht
            refine ⟨by simp, ?_⟩
            intro x hx
            simp at hx
            subst hx
            simpa using hc
          · rw [pySplit_cons] at ht
            simp only [hc, hd, if_false, hps] at ht
            rcases List.mem_cons.mp ht with h1 | h2
            · subst h1
              have h0 : t0 ∈ pySplit (d :: rest2) := by rw [hps]; simp
              have := ih t0 h0
              refine ⟨by simp, ?_⟩
              intro x hx
              rcases List.mem_cons.mp hx with hx1 | hx2
              · subst hx1; simpa using hc
              · exact this.2 x hx2
            · have h0 : t ∈ pySplit (d :: rest2) := by rw [hps]; simp [h2]
              exact ih t h0

theorem pySplit_token (t : List Char) (ht : t ≠ [])
    (hws : ∀ c ∈ t, isWsChar c = false) : pySplit t = [t] := by
  induction t with
  | nil => exact absurd rfl ht
  | cons c t2 ih =>
    have hc : isWsChar c = false := hws c (by simp)
    cases t2 with
    | nil => rw [pySplit_cons]; simp [hc]
    | cons d t3 =>
      have hd : isWsChar d = false := hws d (by simp)
      have ih2 : pySplit (d :: t3) = [d :: t3] := by
        refine ih (by simp) ?_
        intro x hx
        exact hws x (List.mem_cons_of_mem _ hx)
      rw [pySplit_cons]
      simp [hc, hd, ih2]

theorem pySplit_token_append (t : List Char) (ht : t ≠ [])
    (hws : ∀ c ∈ t, isWsChar c = false) (r : List Char) :
    pySplit (t ++ ' ' :: r) = t :: pySplit r := by
  induction t with
  | nil => exact absurd rfl ht
  | cons c t2 ih =>
    have hc : isWsChar c = false := hws c (by simp)
    cases t2 with
    | nil =>
      show pySplit (c :: ' ' :: r) = [c] :: pySplit r
      rw [pySplit_cons]
      simp only [hc, if_false]
      have hsp : isWsChar ' ' = true := rfl
      simp only [hsp, if_true]
      rw [pySplit_cons]
      simp [hsp]
    | cons d t3 =>
      have hd : isWsChar d = false := hws d (by simp)
      have ih2 : pySplit ((d :: t3) ++ ' ' :: r) = (d :: t3) :: pySplit r := by
        refine ih (by simp) ?_
        intro x hx
        exact hws x (List.mem_cons_of_mem _ hx)
      show pySplit (c :: ((d :: t3) ++ ' ' :: r)) = (c :: d :: t3) :: pySplit r
      rw [pySplit_cons]
      rw [List.cons_append] at ih2
      simp [hc, hd, ih2]

theorem pySplit_pyJoinWs (toks : List (List Char))
    (h : ∀ t ∈ toks, t ≠ [] ∧ ∀ c ∈ t, isWsChar c = false) :
    pySplit (pyJoinWs toks) = toks := by
  induction toks with
  | nil => rfl
  | cons t toks2 ih =>
    cases toks2 with
    | nil =>
      have := h t (by simp)
      show pySplit t = [t]
      exact pySplit_token t this.1 this.2
    | cons u toks3 =>
      have htt := h t (by simp)
      show pySplit (t ++ ' ' :: pyJoinWs (u :: toks3)) = t :: (u :: toks3)
      rw [pySplit_token_append t htt.1 htt.2]
      congr 1
      refine ih ?_
      intro x hx
      exact h x (List.mem_cons_of_mem _ hx)

/-! ## Claim theorems -/

/-- C2: for every call to `process_move`: if the shared in-flight flag
is already set on entry, the call returns without dispatching any
pipeline step and without changing the flag; otherwise the flag is set
before the pipeline runs and is cleared on every exit path — early
`return`, normal completion, and a raising pipeline step alike — so at
most one pipeline is ever in flight. -/
theorem process_move_single_flight :
    ∀ (flag0 : Bool) (outcome : PipelineOutcome),
      (flag0 = true →
        process_move flag0 outcome =
          { dispatched := false, flagDuring := true, flagAfter := true }) ∧
      (flag0 = false →
        (process_move flag0 outcome).dispatched = true ∧
        (process_move flag0 outcome).flagDuring = true ∧
        (process_move flag0 outcome).flagAfter = false) := by
  intro flag0 outcome
  constructor
  · intro h
    subst h
    rfl
  · intro h
    subst h
    cases outcome <;> exact ⟨rfl, rfl, rfl⟩

/-- Witness for C2: a blocked call with the flag set, and a raising
pipeline with the flag initially clear. -/
theorem process_move_single_flight_witness :
    process_move true .completed =
      { dispatched := false, flagDuring := true, flagAfter := true } ∧
    (process_move false (.raised ['e'])).flagAfter = false := by
  exact ⟨(process_move_single_flight true .completed).1 rfl,
    ((process_move_single_flight false (.raised ['e'])).2 rfl).2.2⟩

/-- C4: the player-turn observation reports an opponent move exactly
when the opponent slot is seeded and the current placement differs from
the stored value; in that case it latches the new placement, so a
second observation of the same placement reports no change; an
unseeded slot always reports no change. -/
theorem handle_player_turn_latch :
    ∀ (slot : Option (List Char)) (p : List Char),
      ((_handle_player_turn slot p).1 = true ↔ ∃ old, slot = some old ∧ old ≠ p) ∧
      ((_handle_player_turn slot p).1 = true → (_handle_player_turn slot p).2 = some p) ∧
      (_handle_player_turn (_handle_player_turn slot p).2 p).1 = false ∧
      _handle_player_turn none p = (false, none) := by
  intro slot p
  match slot with
  | none => simp [_handle_player_turn]
  | some old =>
    by_cases h : p = old
    · subst h
      simp [_handle_player_turn]
    · simp [_handle_player_turn, h, Ne.symm h]

/-- Witness for C4: a seeded slot differing from the sample triggers
exactly once. -/
theorem handle_player_turn_latch_witness :
    (_handle_player_turn (some ['a']) ['b']).2 = some ['b'] ∧
    (_handle_player_turn (_handle_player_turn (some ['a']) ['b']).2 ['b']).1 = false := by
  exact ⟨(handle_player_turn_latch (some ['a']) ['b']).2.1 (by decide),
    (handle_player_turn_latch (some ['a']) ['b']).2.2.1⟩

/-- C7: a move is classified as a pawn promotion exactly when it has
length 5 and its last character is one of `q r b n` in either case; for
such a move the extracted letter is the lower-cased last character;
every 4-character move is classified as non-promotion; `"e7e8q"` is a
promotion with letter `'q'`. -/
theorem pawn_promotion_classification :
    ∀ m : List Char,
      (is_pawn_promotion_move m = true ↔
        m.length = 5 ∧ m.getD 4 ' ' ∈ (['q', 'r', 'b', 'n', 'Q', 'R', 'B', 'N'] : List Char)) ∧
      (is_pawn_promotion_move m = true →
        get_promotion_piece_from_move m = some (m.getD 4 ' ').toLower) ∧
      (m.length = 4 → is_pawn_promotion_move m = false) ∧
      (is_pawn_promotion_move "e7e8q".toList = true ∧
        get_promotion_piece_from_move "e7e8q".toList = some 'q') := by
  intro m
  refine ⟨?_, ?_, ?_, by decide⟩
  · constructor
    · intro h
      simp only [is_pawn_promotion_move, Bool.and_eq_true, decide_eq_true_eq] at h
      exact ⟨h.1, by simpa using h.2⟩
    · intro h
      simp only [is_pawn_promotion_move, Bool.and_eq_true, decide_eq_true_eq]
      exact ⟨h.1, by simpa using h.2⟩
  · intro h
    have h5 : m.length = 5 := by
      simp only [is_pawn_promotion_move, Bool.and_eq_true, decide_eq_true_eq] at h
      exact h.1
    simp [get_promotion_piece_from_move, h5]
  · intro h
    simp [is_pawn_promotion_move, h]

/-- Witness for C7: `"a7a8R"` is a promotion whose extracted letter is
`'r'`. -/
theorem pawn_promotion_classification_witness :
    get_promotion_piece_from_move "a7a8R".toList = some 'r' := by
  have h := (pawn_promotion_classification "a7a8R".toList).2.1 (by decide)
  simpa using h

/-- C1 counterexample: a tick that samples successfully and then
suffers an uncaught fault is a failed tick, yet from a pre-tick counter
of 2 the counter ends at 1 — not at 2 + 1 = 3 as "incremented on every
failed tick" predicts — so the loop does not stop and auto mode stays
enabled, against the claim's threshold behaviour. -/
theorem auto_move_failure_counter_cex :
    runLoop ⟨2, true, none⟩
        [.captureSome "8/8/8/8/8/8/8/4K3".toList "w".toList (some "boom".toList)] =
      ⟨1, true, none⟩ ∧
    (runLoop ⟨2, true, none⟩
        [.captureSome "8/8/8/8/8/8/8/4K3".toList "w".toList (some "boom".toList)]).failures ≠ 2 + 1 ∧
    (runLoop ⟨2, true, none⟩
        [.captureSome "8/8/8/8/8/8/8/4K3".toList "w".toList (some "boom".toList)]).stoppedMsg = none := by
  refine ⟨by decide, by decide, by decide⟩

/-- C1 (amended): the loop counter is incremented by one on a sampling
failure and on a fault arising before the successful-sample reset; a
successful sample resets it to zero, after which a fault in the same
tick leaves it at one (not at its pre-tick value plus one); whenever an
increment reaches `MAX_CONSECUTIVE_FAILURES` (3) the loop stops,
disables auto mode and reports a descriptive reason; in particular
three consecutive sampling failures force a stop with the
board-detection reason, while a success before the threshold resets the
counter and no stop occurs. -/
theorem auto_move_failure_counter_amended :
    (∀ (s : LoopState) (rest : List TickEvent) (msg : List Char),
      s.autoMode = true → s.stoppedMsg = none →
      s.failures < AppConfig.MAX_CONSECUTIVE_FAILURES →
      runLoop s (.raiseBeforeReset msg :: rest) =
        if AppConfig.MAX_CONSECUTIVE_FAILURES ≤ s.failures + 1 then
          _stop_auto_mode { s with failures := s.failures + 1 } (stopMsgError msg)
        else runLoop { s with failures := s.failures + 1 } rest) ∧
    (∀ (s : LoopState) (rest : List TickEvent),
      s.autoMode = true → s.stoppedMsg = none →
      s.failures < AppConfig.MAX_CONSECUTIVE_FAILURES →
      runLoop s (.captureNone :: rest) =
        if AppConfig.MAX_CONSECUTIVE_FAILURES ≤ s.failures + 1 then
          _stop_auto_mode { s with failures := s.failures + 1 } stopMsgDetect
        else runLoop { s with failures := s.failures + 1 } rest) ∧
    (∀ (s : LoopState) (rest : List TickEvent) (p a : List Char),
      s.autoMode = true → s.stoppedMsg = none →
      s.failures < AppConfig.MAX_CONSECUTIVE_FAILURES →
      runLoop s (.captureSome p a none :: rest) = runLoop { s with failures := 0 } rest) ∧
    (∀ (s : LoopState) (rest : List TickEvent) (p a msg : List Char),
      s.autoMode = true → s.stoppedMsg = none →
      s.failures < AppConfig.MAX_CONSECUTIVE_FAILURES →
      runLoop s (.captureSome p a (some msg) :: rest) =
        runLoop { s with failures := 1 } rest) ∧
    runLoop ⟨0, true, none⟩ [.captureNone, .captureNone, .captureNone] =
      ⟨3, false, some stopMsgDetect⟩ ∧
    (∀ p a : List Char,
      runLoop ⟨0, true, none⟩ [.captureNone, .captureSome p a none] = ⟨0, true, none⟩) := by
  have hM : AppConfig.MAX_CONSECUTIVE_FAILURES = 3 := rfl
  refine ⟨?_, ?_, ?_, ?_, by decide, ?_⟩
  · intro s rest msg hA hS hF
    have h3 : ¬ AppConfig.MAX_CONSECUTIVE_FAILURES ≤ s.failures := by omega
    rw [runLoop]
    simp [hA, h3]
  · intro s rest hA hS hF
    have h3 : ¬ AppConfig.MAX_CONSECUTIVE_FAILURES ≤ s.failures := by omega
    rw [runLoop]
    simp [hA, h3]
  · intro s rest p a hA hS hF
    have h3 : ¬ AppConfig.MAX_CONSECUTIVE_FAILURES ≤ s.failures := by omega
    rw [runLoop]
    simp [hA, h3]
  · intro s rest p a msg hA hS hF
    have h3 : ¬ AppConfig.MAX_CONSECUTIVE_FAILURES ≤ s.failures := by omega
    have h1 : ¬ AppConfig.MAX_CONSECUTIVE_FAILURES ≤ 0 + 1 := by omega
    rw [runLoop]
    simp [hA, h3, h1]
  · intro p a
    simp [runLoop, AppConfig.MAX_CONSECUTIVE_FAILURES, _stop_auto_mode]

/-- Witness for C1 (amended): a single sampling failure from a clean
state increments the counter to one without stopping. -/
theorem auto_move_failure_counter_amended_witness :
    runLoop ⟨0, true, none⟩ [.captureNone] = ⟨1, true, none⟩ := by
  have h := auto_move_failure_counter_amended.2.1 ⟨0, true, none⟩ [] rfl rfl (by decide)
  simpa using h

/-- C5 counterexample: both placements decode to 64 cells and
`did_castling_move` accepts the pair, yet the specification's pattern
rejects it — the king's destination `g1` held a knight before the move,
violating "destination cell was empty before", which the source never
checks. -/
theorem did_castling_move_cex :
    (fen_to_list "8/8/8/8/8/8/8/4K1nR w - - 0 1".toList).length = 64 ∧
    (fen_to_list "8/8/8/8/8/8/8/5RK1 b - - 0 1".toList).length = 64 ∧
    did_castling_move ['w'] "8/8/8/8/8/8/8/4K1nR w - - 0 1".toList
      "8/8/8/8/8/8/8/5RK1 b - - 0 1".toList "e1g1".toList "h1f1".toList = true ∧
    specCastlingBothLegs ['w'] "8/8/8/8/8/8/8/4K1nR w - - 0 1".toList
      "8/8/8/8/8/8/8/5RK1 b - - 0 1".toList "e1g1".toList "h1f1".toList = false := by
  refine ⟨by decide, by decide, by decide, by decide⟩

/-- C5 (amended): `did_castling_move` returns true exactly when each of
the two legs independently satisfies the from/to pattern actually
checked by the source — origin held one of the player's pieces before
and is empty after, and the destination now holds that same piece (with
no requirement that the destination was empty before); no cell outside
the four castling squares is constrained: placements agreeing on those
cells give the same verdict. -/
theorem did_castling_move_amended :
    ∀ (color before after km rm : List Char),
      (did_castling_move color before after km rm = true ↔
        (codeCastlingLeg (fen_to_list before) (fen_to_list after) (myPieces color)
            (algebraic_to_index (km.take 2))
            (algebraic_to_index ((km.drop 2).take 2)) = true ∧
          codeCastlingLeg (fen_to_list before) (fen_to_list after) (myPieces color)
            (algebraic_to_index (rm.take 2))
            (algebraic_to_index ((rm.drop 2).take 2)) = true)) ∧
      (∀ before2 after2 : List Char,
        (fen_to_list before2).getD (algebraic_to_index (km.take 2)) ' ' =
          (fen_to_list before).getD (algebraic_to_index (km.take 2)) ' ' →
        (fen_to_list before2).getD (algebraic_to_index (rm.take 2)) ' ' =
          (fen_to_list before).getD (algebraic_to_index (rm.take 2)) ' ' →
        (fen_to_list after2).getD (algebraic_to_index (km.take 2)) ' ' =
          (fen_to_list after).getD (algebraic_to_index (km.take 2)) ' ' →
        (fen_to_list after2).getD (algebraic_to_index ((km.drop 2).take 2)) ' ' =
          (fen_to_list after).getD (algebraic_to_index ((km.drop 2).take 2)) ' ' →
        (fen_to_list after2).getD (algebraic_to_index (rm.take 2)) ' ' =
          (fen_to_list after).getD (algebraic_to_index (rm.take 2)) ' ' →
        (fen_to_list after2).getD (algebraic_to_index ((rm.drop 2).take 2)) ' ' =
          (fen_to_list after).getD (algebraic_to_index ((rm.drop 2).take 2)) ' ' →
        did_castling_move color before2 after2 km rm =
          did_castling_move color before after km rm) := by
  intro color before after km rm
  constructor
  · simp only [did_castling_move, codeCastlingLeg, Bool.and_eq_true]
    tauto
  · intro before2 after2 h1 h2 h3 h4 h5 h6
    simp only [did_castling_move]
    rw [h1, h2, h3, h4, h5, h6]

/-- Witness for C5 (amended): the verdict on a genuine white kingside
castling is unchanged when every cell outside the four castling squares
is replaced. -/
theorem did_castling_move_amended_witness :
    did_castling_move ['w'] "1nb2q2/8/8/3pp3/8/8/8/R3K2R w KQ - 0 1".toList
        "1nb2q2/8/8/3pp3/8/8/8/R4RK1 b - - 1 1".toList "e1g1".toList "h1f1".toList =
      did_castling_move ['w'] "r3k2r/8/8/8/8/8/8/R3K2R w KQkq - 0 1".toList
        "r3k2r/8/8/8/8/8/8/R4RK1 b kq - 1 1".toList "e1g1".toList "h1f1".toList := by
  exact (did_castling_move_amended ['w'] "r3k2r/8/8/8/8/8/8/R3K2R w KQkq - 0 1".toList
    "r3k2r/8/8/8/8/8/8/R4RK1 b kq - 1 1".toList "e1g1".toList "h1f1".toList).2
    "1nb2q2/8/8/3pp3/8/8/8/R3K2R w KQ - 0 1".toList
    "1nb2q2/8/8/3pp3/8/8/8/R4RK1 b - - 1 1".toList
    (by decide) (by decide) (by decide) (by decide) (by decide) (by decide)

theorem buildCastling_chars (player : List Char) (k q : Bool) (fen : List Char) :
    _build_castling_rights player k q fen ≠ [] ∧
    ∀ c ∈ _build_castling_rights player k q fen,
      c ∈ (['K', 'Q', 'k', 'q', '-'] : List Char) := by
  unfold _build_castling_rights _get_color_castling_rights
  cases hwk : _should_add_castling_right ['w'] .kingside player k fen <;>
    cases hwq : _should_add_castling_right ['w'] .queenside player q fen <;>
      cases hbk : _should_add_castling_right ['b'] .kingside player k fen <;>
        cases hbq : _should_add_castling_right ['b'] .queenside player q fen <;>
          simp [_get_castling_symbols]

theorem buildCastling_not_ws (player : List Char) (k q : Bool) (fen : List Char) :
    ∀ c ∈ _build_castling_rights player k q fen, isWsChar c = false := by
  intro c hc
  have h := (buildCastling_chars player k q fen).2 c hc
  simp only [List.mem_cons, List.not_mem_nil, or_false] at h
  rcases h with rfl | rfl | rfl | rfl | rfl <;> decide

theorem update_fen_split_eq (player : List Char) (k q : Bool) (fen : List Char)
    (h : 6 ≤ (pySplit fen).length) :
    pySplit (update_fen_castling_rights player k q fen) =
      (pySplit fen).set 2 (_build_castling_rights player k q fen) := by
  have hlt : ¬ (pySplit fen).length < 6 := by omega
  simp only [update_fen_castling_rights]
  rw [if_neg hlt]
  apply pySplit_pyJoinWs
  intro t ht
  rcases List.mem_or_eq_of_mem_set ht with hmem | heq
  · exact pySplit_tokens fen t hmem
  · subst heq
    exact ⟨(buildCastling_chars player k q fen).1, buildCastling_not_ws player k q fen⟩

theorem buildCastling_filter (player : List Char) (k q : Bool) (fen : List Char) :
    _build_castling_rights player k q fen =
      if "KQkq".toList.filter (castlingSymbolQualifies player k q fen) = [] then ['-']
      else "KQkq".toList.filter (castlingSymbolQualifies player k q fen) := by
  have hK : "KQkq".toList = ['K', 'Q', 'k', 'q'] := by decide
  unfold _build_castling_rights _get_color_castling_rights
  rw [hK]
  cases hwk : _should_add_castling_right ['w'] .kingside player k fen <;>
    cases hwq : _should_add_castling_right ['w'] .queenside player q fen <;>
      cases hbk : _should_add_castling_right ['b'] .kingside player k fen <;>
        cases hbq : _should_add_castling_right ['b'] .queenside player q fen <;>
          simp [_get_castling_symbols, castlingSymbolQualifies, List.filter_cons,
            hwk, hwq, hbk, hbq]

/-- C6: for a FEN with at least six fields, the castling field of the
updated FEN is exactly the string built by including, in the fixed
order `K,Q,k,q`, those symbols that qualify (physically possible, and
for the player's own color also gated by the matching user flag), and
`"-"` when none qualifies; hence the field is always `"-"` or a
nonempty subsequence of `"KQkq"`. -/
theorem update_fen_castling_rights_field :
    ∀ (player : List Char) (k q : Bool) (fen : List Char),
      6 ≤ (pySplit fen).length →
      (pySplit (update_fen_castling_rights player k q fen))[2]? =
        some (_build_castling_rights player k q fen) ∧
      _build_castling_rights player k q fen =
        (if "KQkq".toList.filter (castlingSymbolQualifies player k q fen) = [] then ['-']
         else "KQkq".toList.filter (castlingSymbolQualifies player k q fen)) ∧
      (_build_castling_rights player k q fen = ['-'] ∨
        (_build_castling_rights player k q fen ≠ [] ∧
          List.Sublist (_build_castling_rights player k q fen) "KQkq".toList)) := by
  intro player k q fen h
  refine ⟨?_, buildCastling_filter player k q fen, ?_⟩
  · rw [update_fen_split_eq player k q fen h, List.getElem?_set]
    have h2 : 2 < (pySplit fen).length := by omega
    simp [h2]
  · rw [buildCastling_filter player k q fen]
    by_cases hf : "KQkq".toList.filter (castlingSymbolQualifies player k q fen) = []
    · left
      rw [if_pos hf]
    · right
      rw [if_neg hf]
      exact ⟨hf, List.filter_sublist _⟩

/-- Witness for C6: on a position where all four rights are physically
possible and both user flags are set, the castling field of the updated
FEN is `"KQkq"`. -/
theorem update_fen_castling_rights_field_witness :
    (pySplit (update_fen_castling_rights ['w'] true true
        "r3k2r/8/8/8/8/8/8/R3K2R w KQkq - 0 1".toList))[2]? = some "KQkq".toList := by
  have h := (update_fen_castling_rights_field ['w'] true true
    "r3k2r/8/8/8/8/8/8/R3K2R w KQkq - 0 1".toList (by decide)).1
  rw [h]
  decide

/-- C8: `update_fen_castling_rights` returns a FEN with fewer than six
whitespace-separated fields unchanged; with six or more fields the
result has the same number of fields and agrees with the input on every
field except index 2. -/
theorem update_fen_castling_rights_frame :
    ∀ (player : List Char) (k q : Bool) (fen : List Char),
      ((pySplit fen).length < 6 → update_fen_castling_rights player k q fen = fen) ∧
      (6 ≤ (pySplit fen).length →
        (pySplit (update_fen_castling_rights player k q fen)).length =
          (pySplit fen).length ∧
        ∀ i : Nat, i ≠ 2 →
          (pySplit (update_fen_castling_rights player k q fen))[i]? = (pySplit fen)[i]?) := by
  intro player k q fen
  constructor
  · intro h
    simp only [update_fen_castling_rights]
    rw [if_pos h]
  · intro h
    constructor
    · rw [update_fen_split_eq player k q fen h, List.length_set]
    · intro i hi
      rw [update_fen_split_eq player k q fen h, List.getElem?_set_ne (Ne.symm hi)]

/-- Witness for C8: a malformed FEN is returned unchanged, and on a
six-field FEN the side-to-move field survives the update. -/
theorem update_fen_castling_rights_frame_witness :
    update_fen_castling_rights ['w'] true true "too few".toList = "too few".toList ∧
    (pySplit (update_fen_castling_rights ['w'] false false
        "r3k2r/8/8/8/8/8/8/R3K2R w KQkq - 0 1".toList))[1]? = some "w".toList := by
  constructor
  · exact (update_fen_castling_rights_frame ['w'] true true "too few".toList).1 (by decide)
  · have h := ((update_fen_castling_rights_frame ['w'] false false
      "r3k2r/8/8/8/8/8/8/R3K2R w KQkq - 0 1".toList).2 (by decide)).2 1 (by decide)
    rw [h]
    decide

theorem findVerified_none (didMove : List Char → Bool)
    (captures : Nat → Option (List Char))
    (h : ∀ i fen, captures i = some fen → didMove fen = false) :
    ∀ k i, findVerified didMove captures i k = none := by
  intro k
  induction k with
  | zero => intro i; rfl
  | succ k ih =>
    intro i
    rw [findVerified]
    cases hc : captures i with
    | none => exact ih (i + 1)
    | some fen =>
      simp only [h i fen hc, if_false]
      exact ih (i + 1)

/-- C3: when every verification attempt for an executed move fails
(`did_my_piece_move` accepts no captured FEN) and
`SKIP_VERIFICATION_ON_FAILURE` is enabled, the first attempt already
returns success to `execute_normal_move`'s caller, the reported status
text carries the `" (unverified)"` marker, and autoplay is disabled
unconditionally. -/
theorem execute_normal_move_unverified_soft_success :
    ∀ (envs : Nat → AttemptEnv) (didMove : List Char → Bool)
      (move : List Char) (mateFlag : Bool) (ui : UIState),
      (envs 1).originalFen.isSome = true →
      (envs 1).positionsOk = true →
      (∀ i fen, (envs 1).captures i = some fen → didMove fen = false) →
      AppConfig.SKIP_VERIFICATION_ON_FAILURE = true →
      (execute_normal_move envs didMove move mateFlag ui).1 = true ∧
      (execute_normal_move envs didMove move mateFlag ui).2.autoMode = false ∧
      (execute_normal_move envs didMove move mateFlag ui).2.status =
        some (if mateFlag then
            (bestMoveStatus move ++ " (unverified)".toList) ++ checkmateSuffix
          else bestMoveStatus move ++ " (unverified)".toList) ∧
      ∃ s, (execute_normal_move envs didMove move mateFlag ui).2.status = some s ∧
        " (unverified)".toList <:+: s := by
  intro envs didMove move mateFlag ui h1 h2 h3 _hskip
  obtain ⟨f, hf⟩ := Option.isSome_iff_exists.mp h1
  have hV : _verify_move_execution didMove move (envs 1).captures = none := by
    unfold _verify_move_execution
    exact findVerified_none didMove (envs 1).captures h3 _ 0
  have hAttempt :
      _attempt_single_move (envs 1) didMove move mateFlag ui =
        (⟨true, true⟩, _handle_unverified_move move mateFlag ui) := by
    unfold _attempt_single_move
    rw [hf]
    simp [h2, hV, AppConfig.SKIP_VERIFICATION_ON_FAILURE]
  have hRun :
      execute_normal_move envs didMove move mateFlag ui =
        (true, _handle_unverified_move move mateFlag ui) := by
    unfold execute_normal_move execLoop
    rw [hAttempt]
    simp
  rw [hRun]
  refine ⟨rfl, rfl, ?_, ?_⟩
  · cases mateFlag <;>
      simp [_handle_unverified_move, update_status, _disable_auto_mode]
  · refine ⟨_, rfl, ?_⟩
    cases mateFlag
    · exact ⟨bestMoveStatus move, [], by simp [_handle_unverified_move, update_status,
        _disable_auto_mode]⟩
    · exact ⟨bestMoveStatus move, checkmateSuffix, by simp [_handle_unverified_move,
        update_status, _disable_auto_mode]⟩

/-- Witness for C3: with a sensor that never returns a FEN, the move is
reported as an unverified success and autoplay ends disabled. -/
theorem execute_normal_move_unverified_soft_success_witness :
    (execute_normal_move (fun _ => ⟨some ['x'], true, fun _ => none⟩) (fun _ => false)
        "e2e4".toList false ⟨none, true⟩).1 = true ∧
    (execute_normal_move (fun _ => ⟨some ['x'], true, fun _ => none⟩) (fun _ => false)
        "e2e4".toList false ⟨none, true⟩).2.autoMode = false := by
  have h := execute_normal_move_unverified_soft_success
    (fun _ => ⟨some ['x'], true, fun _ => none⟩) (fun _ => false)
    "e2e4".toList false ⟨none, true⟩ rfl rfl
    (fun i fen hif => by cases hif) rfl
  exact ⟨h.1, h.2.1⟩

theorem firstGoodAttempt_some_iff (good : Nat → Bool) :
    ∀ (k i j : Nat),
      firstGoodAttempt good i k = some j ↔
        (i ≤ j ∧ j < i + k ∧ good j = true ∧ ∀ m, i ≤ m → m < j → good m = false) := by
  intro k
  induction k with
  | zero =>
    intro i j
    simp only [firstGoodAttempt]
    constructor
    · intro h
      cases h
    · rintro ⟨h1, h2, -, -⟩
      omega
  | succ k ih =>
    intro i j
    rw [firstGoodAttempt]
    by_cases hg : good i = true
    · rw [if_pos hg]
      constructor
      · intro h
        injection h with h
        subst h
        refine ⟨Nat.le_refl _, by omega, hg, ?_⟩
        intro m h1 h2
        exact absurd (Nat.lt_of_le_of_lt h1 h2) (Nat.lt_irrefl _)
      · rintro ⟨h1, h2, h3, h4⟩
        rcases Nat.eq_or_lt_of_le h1 with rfl | hlt
        · rfl
        · have := h4 i (Nat.le_refl i) hlt
          rw [hg] at this
          cases this
    · rw [if_neg hg]
      have hg2 : good i = false := by
        revert hg
        cases good i <;> simp
      rw [ih (i + 1) j]
      constructor
      · rintro ⟨h1, h2, h3, h4⟩
        refine ⟨by omega, by omega, h3, ?_⟩
        intro m hm1 hm2
        rcases Nat.eq_or_lt_of_le hm1 with rfl | hlt
        · exact hg2
        · exact h4 m (by omega) hm2
      · rintro ⟨h1, h2, h3, h4⟩
        have hij : i ≠ j := by
          rintro rfl
          rw [h3] at hg2
          cases hg2
        exact ⟨by omega, by omega, h3, fun m hm1 hm2 => h4 m (by omega) hm2⟩

theorem firstGoodAttempt_none_iff (good : Nat → Bool) :
    ∀ (k i : Nat),
      firstGoodAttempt good i k = none ↔ ∀ m, i ≤ m → m < i + k → good m = false := by
  intro k
  induction k with
  | zero =>
    intro i
    simp only [firstGoodAttempt]
    constructor
    · intro _ m h1 h2
      omega
    · intro _
      trivial
  | succ k ih =>
    intro i
    rw [firstGoodAttempt]
    by_cases hg : good i = true
    · rw [if_pos hg]
      constructor
      · intro h
        cases h
      · intro h
        rw [h i (Nat.le_refl i) (by omega)] at hg
        cases hg
    · rw [if_neg hg]
      have hg2 : good i = false := by
        revert hg
        cases good i <;> simp
      rw [ih (i + 1)]
      constructor
      · intro h m hm1 hm2
        rcases Nat.eq_or_lt_of_le hm1 with rfl | hlt
        · exact hg2
        · exact h m (by omega) (by omega)
      · intro h m hm1 hm2
        exact h m (by omega) (by omega)

/-- C9: whenever `verify_move` returns (its expected placement being
extractable), the result is success at exactly the first attempt —
1-based, at most the budget — whose sample has a flipped side-to-move
or the expected placement (so success can be reported although the
placement differs from the expected one, provided the side-to-move has
flipped), and is `(False, attempts_limit)` when no attempt qualifies. -/
theorem verify_move_first_success :
    ∀ (color expectedFen : List Char) (samples : Nat → Option (List (List Char)))
      (limit : Nat) (res : Bool × Nat),
      verify_move color expectedFen samples limit = some res →
      verifyMoveClaimProp color expectedFen samples limit res := by
  intro color ef samples limit res h
  unfold verify_move at h
  cases hep : (pySplit ef)[0]? with
  | none =>
    rw [hep] at h
    cases h
  | some ep =>
    rw [hep] at h
    refine ⟨ep, hep, ?_, ?_⟩
    · intro parts
      rcases h1 : parts[1]? with _ | stm <;> rcases h0 : parts[0]? with _ | p0 <;>
        simp [verifyAttemptOk, h1, h0]
    · dsimp only at h ⊢
      cases hfg : firstGoodAttempt (fun i =>
          match samples i with
          | some parts => verifyAttemptOk color ep parts
          | none => false) 1 limit with
      | some i =>
        rw [hfg] at h
        injection h with h
        subst h
        obtain ⟨hb1, hb2, hb3, hb4⟩ := (firstGoodAttempt_some_iff _ limit 1 i).mp hfg
        left
        exact ⟨i, hb1, by omega, hb3, fun j hj1 hj2 => hb4 j hj1 hj2, rfl⟩
      | none =>
        rw [hfg] at h
        injection h with h
        subst h
        right
        refine ⟨?_, rfl⟩
        intro j hj1 hj2
        exact (firstGoodAttempt_none_iff _ limit 1).mp hfg j hj1 (by omega)

/-- Witness for C9: the sensor fails on attempt 1, attempt 2 shows a
placement that does not match but a flipped side-to-move, and
`verify_move` returns success with index 2. -/
theorem verify_move_first_success_witness :
    verifyMoveClaimProp "w".toList "abc w KQkq - 0 1".toList
      (fun i => if i = 2 then some ["xyz".toList, "b".toList] else none) 3 (true, 2) := by
  exact verify_move_first_success "w".toList "abc w KQkq - 0 1".toList
    (fun i => if i = 2 then some ["xyz".toList, "b".toList] else none) 3 (true, 2) (by decide)

theorem parsedMateScore_isSome (l : List Char) (v : Int)
    (h : parsedMateScore l = some v) :
    (afterFirstSub scoreMateLit l).isSome = true := by
  unfold parsedMateScore at h
  cases ha : afterFirstSub scoreMateLit l with
  | none =>
    rw [ha] at h
    cases h
  | some rest => simp [ha]

theorem check_for_mate_true_cases (l : List Char) (f : Bool)
    (h : _check_for_mate l f = true) :
    f = true ∨ ∃ v, parsedMateScore l = some v ∧ v.natAbs = 1 := by
  unfold _check_for_mate at h
  cases ha : afterFirstSub scoreMateLit l with
  | none =>
    rw [ha] at h
    exact Or.inl h
  | some rest =>
    rw [ha] at h
    cases hp : parsedMateScore l with
    | none =>
      rw [hp] at h
      exact Or.inl h
    | some v =>
      rw [hp] at h
      dsimp only at h
      by_cases h1 : v.natAbs = 1
      · exact Or.inr ⟨v, rfl, h1⟩
      · rw [if_neg h1] at h
        exact Or.inl h

theorem check_for_mate_keeps (l : List Char) : _check_for_mate l true = true := by
  unfold _check_for_mate
  cases afterFirstSub scoreMateLit l with
  | none => rfl
  | some rest =>
    cases parsedMateScore l with
    | none => rfl
    | some v => simp

theorem check_for_mate_not_mate (l : List Char) (f : Bool)
    (h : ∀ v : Int, parsedMateScore l = some v → v.natAbs ≠ 1) :
    _check_for_mate l f = f := by
  unfold _check_for_mate
  cases ha : afterFirstSub scoreMateLit l with
  | none => rfl
  | some rest =>
    cases hp : parsedMateScore l with
    | none => rfl
    | some v =>
      dsimp only
      rw [if_neg (h v hp)]

theorem engineLoop_true_source :
    ∀ (lines : List (List Char)) (flag : Bool) (bm : Option (List Char)),
      engineLoop lines flag = some (bm, true) →
      flag = true ∨ ∃ l ∈ lines, ∃ v, parsedMateScore l = some v ∧ v.natAbs = 1 := by
  intro lines
  induction lines with
  | nil =>
    intro flag bm h
    unfold engineLoop at h
    injection h with h
    left
    simpa using congrArg Prod.snd h
  | cons l rest ih =>
    intro flag bm h
    rw [engineLoop] at h
    cases he : _extract_best_move l with
    | none =>
      rw [he] at h
      rcases ih (_check_for_mate l flag) bm h with hf | hex
      · rcases check_for_mate_true_cases l flag hf with h1 | h2
        · exact Or.inl h1
        · exact Or.inr ⟨l, by simp, h2⟩
      · obtain ⟨l2, hl2, hv⟩ := hex
        exact Or.inr ⟨l2, by simp [hl2], hv⟩
    | some tok? =>
      cases tok? with
      | none =>
        rw [he] at h
        cases h
      | some tok =>
        rw [he] at h
        injection h with h
        have hflag : _check_for_mate l flag = true := by
          simpa using congrArg Prod.snd h
        rcases check_for_mate_true_cases l flag hflag with h1 | h2
        · exact Or.inl h1
        · exact Or.inr ⟨l, by simp, h2⟩

theorem engineLoop_monotone :
    ∀ (lines : List (List Char)) (bm : Option (List Char)) (flag2 : Bool),
      engineLoop lines true = some (bm, flag2) → flag2 = true := by
  intro lines
  induction lines with
  | nil =>
    intro bm flag2 h
    unfold engineLoop at h
    injection h with h
    simpa using (congrArg Prod.snd h).symm
  | cons l rest ih =>
    intro bm flag2 h
    rw [engineLoop] at h
    rw [check_for_mate_keeps l] at h
    cases he : _extract_best_move l with
    | none =>
      rw [he] at h
      exact ih bm flag2 h
    | some tok? =>
      cases tok? with
      | none =>
        rw [he] at h
        cases h
      | some tok =>
        rw [he] at h
        injection h with h
        simpa using (congrArg Prod.snd h).symm

/-- C10: the mate flag returned by the best-move query is true only if
some processed line contains `"score mate"` with a parsed score of
absolute value exactly 1; a line whose parsed mate score has absolute
value 2 or more (or fails to parse) never changes the flag; and once
the flag is set it stays set for the rest of the parse. -/
theorem mate_flag_only_mate_in_one :
    (∀ (lines : List (List Char)) (bm : Option (List Char)),
      _get_move_from_engine lines = some (bm, true) →
      ∃ l ∈ lines, (afterFirstSub scoreMateLit l).isSome = true ∧
        ∃ v, parsedMateScore l = some v ∧ v.natAbs = 1) ∧
    (∀ (l : List Char) (f : Bool) (v : Int),
      parsedMateScore l = some v → v.natAbs ≠ 1 → _check_for_mate l f = f) ∧
    (∀ (l : List Char) (f : Bool), parsedMateScore l = none → _check_for_mate l f = f) ∧
    (∀ l : List Char, _check_for_mate l true = true) ∧
    (∀ (lines : List (List Char)) (bm : Option (List Char)) (flag2 : Bool),
      engineLoop lines true = some (bm, flag2) → flag2 = true) := by
  refine ⟨?_, ?_, ?_, check_for_mate_keeps, engineLoop_monotone⟩
  · intro lines bm h
    rcases engineLoop_true_source lines false bm h with hf | hex
    · cases hf
    · obtain ⟨l, hl, v, hv, h1⟩ := hex
      exact ⟨l, hl, parsedMateScore_isSome l v hv, v, hv, h1⟩
  · intro l f v hv hne
    apply check_for_mate_not_mate
    intro v2 hv2
    have h12 := hv.symm.trans hv2
    injection h12 with h12
    rw [← h12]
    exact hne
  · intro l f hv
    apply check_for_mate_not_mate
    intro v2 hv2
    rw [hv] at hv2
    cases hv2

/-- Witness for C10: a parse in which `"score mate 2"` leaves the flag
clear and `"score mate -1"` sets it delivers the best move with the
mate flag on, and the only-if direction names the mate-in-one line. -/
theorem mate_flag_only_mate_in_one_witness :
    ∃ l ∈ ["info score mate 2 pv".toList, "info score mate -1 pv".toList,
        "bestmove a1a2".toList],
      (afterFirstSub scoreMateLit l).isSome = true ∧
        ∃ v, parsedMateScore l = some v ∧ v.natAbs = 1 := by
  exact mate_flag_only_mate_in_one.1
    ["info score mate 2 pv".toList, "info score mate -1 pv".toList, "bestmove a1a2".toList]
    (some "a1a2".toList) (by decide)
